import Mathlib

/-!
Verification of the "medication buddy" assistant (Akhilps04/Project-24).

We shallowly embed the Python source into Lean:

* `Val` models Python/JSON values as they occur in this program
  (strings, integers, booleans, `None`, lists, dicts with string keys).
* Events are dicts, modelled as association lists `List (String × Val)`
  (Python dicts preserve insertion order; keys are unique by construction).
* The file-backed `MemoryBank` store is modelled as an association list
  from user id to event list (`memory/memory_bank.py`).
* Pure helper semantics of Python operations used by the source
  (`x or y`, truthiness, `str.strip`, `str[:n]`, `", ".join`, `in`
  substring test, `re.findall(r"\w+")`, `re.split(r"[,\n;]+")`) are
  embedded explicitly.  Word characters and case mapping are modelled at
  ASCII granularity.
* Environment-dependent pieces (the HTTP transport, `time.time()`,
  `time.strftime`/`time.localtime` which depend on the local timezone)
  are passed in as explicit parameters.
-/

/-- Python/JSON value as used by this program: strings, integer numbers,
booleans, `None`, lists, and dicts with string keys (association lists in
insertion order, unique keys). -/
inductive Val where
  | str (s : String)
  | num (n : Int)
  | bool (b : Bool)
  | null
  | list (vs : List Val)
  | obj (kvs : List (String × Val))
deriving Repr

/-- Python truthiness of a value (`if x:`). -/
def Val.truthy : Val → Bool
  | .str s => !s.isEmpty
  | .num n => n != 0
  | .bool b => b
  | .null => false
  | .list vs => !vs.isEmpty
  | .obj kvs => !kvs.isEmpty

/-- Python `a or b`: returns `a` if truthy, else `b`. -/
def pyOr (a b : Val) : Val := if a.truthy then a else b

/-- Python `d.get(k)` on a dict given as an association list: the value of
the key, or `None` when absent. -/
def dictGet (kvs : List (String × Val)) (k : String) : Val :=
  match kvs.find? (fun kv => kv.1 = k) with
  | some kv => kv.2
  | none => Val.null

/-- Python `d.get(k, default)` on a dict. -/
def dictGetD (kvs : List (String × Val)) (k : String) (d : Val) : Val :=
  match kvs.find? (fun kv => kv.1 = k) with
  | some kv => kv.2
  | none => d

/-- Python `k in d` membership test on a dict. -/
def hasKey (kvs : List (String × Val)) (k : String) : Bool :=
  kvs.any (fun kv => kv.1 = k)

/-- Python `d.setdefault(k, v)`: unchanged if the key is present, else the
pair `(k, v)` is appended (Python dicts append new keys at the end). -/
def dictSetdefault (kvs : List (String × Val)) (k : String) (v : Val) :
    List (String × Val) :=
  if hasKey kvs k then kvs else kvs ++ [(k, v)]

/-- Python `sep.join(strs)` for a list of strings. -/
def joinSep (sep : String) : List String → String
  | [] => ""
  | [b] => b
  | b :: rest => b ++ sep ++ joinSep sep (rest)

/-- Characters stripped by Python `str.strip()` (ASCII whitespace). -/
def pyWs (c : Char) : Bool :=
  c = ' ' || c = '\t' || c = '\n' || c = '\r' || c = '\x0b' || c = '\x0c'

/-- Python `s.strip()`: remove leading and trailing whitespace. -/
def pyStrip (s : String) : String :=
  String.mk (((s.data.dropWhile pyWs).reverse.dropWhile pyWs).reverse)

/-- Python `s[:n]` (slice of the first `n` characters). -/
def pyTake (n : Nat) (s : String) : String := String.mk (s.data.take n)

/-- Python substring test `needle in hay`. -/
def strContains (hay needle : String) : Bool :=
  decide (needle.data <:+: hay.data)

/-- Python prefix test `s.startswith(pre)` (used to state "starts with"). -/
def strStartsWith (s pre : String) : Bool :=
  decide (pre.data <+: s.data)

/-- A `\w` word character of `re.findall(r"\w+", ...)`, at ASCII
granularity: letters, digits, underscore. -/
def isWordChar (c : Char) : Bool := c.isAlphanum || c = '_'

/-- Helper for `findallWords`: scan the character list, accumulating the
current (reversed) run of word characters. -/
def findallWordsAux : List Char → List Char → List String
  | [], cur => if cur.isEmpty then [] else [String.mk cur.reverse]
  | c :: rest, cur =>
    if isWordChar c then findallWordsAux rest (c :: cur)
    else if cur.isEmpty then findallWordsAux rest []
    else String.mk cur.reverse :: findallWordsAux rest []

/-- Python `re.findall(r"\w+", s)`: the maximal runs of word characters. -/
def findallWords (s : String) : List String := findallWordsAux s.data []

/-- Python `s.lower()` (ASCII case mapping, applied per character). -/
def pyLower (s : String) : String := String.mk (s.data.map Char.toLower)

/-- Python `s.upper()` (ASCII case mapping, applied per character). -/
def pyUpper (s : String) : String := String.mk (s.data.map Char.toUpper)

/-!
## Interaction Flag Checker — `src/tools/medcheck_tool.py`
-/

/-- A medication entry passed to `medcheck`: the dict has a required
`name` key and an optional `time` key. -/
structure Med where
  name : String
  time : Option String
deriving DecidableEq, Repr

/-- A flag returned by `medcheck`: either
`{"type":"timing_conflict","time":t,"meds":ns}` or
`{"type":"interaction","pair":p,"severity":s,"note":n}`. -/
inductive MedFlag where
  | timing_conflict (time : String) (meds : List String)
  | interaction (pair : List String) (severity : String) (note : String)
deriving DecidableEq, Repr

/-- `m.get("time", "00:00")` in `medcheck`. -/
def Med.effTime (m : Med) : String := m.time.getD "00:00"

/-- One step of `times.setdefault(t, []).append(m["name"])`: groups are an
association list in insertion order of first occurrence of the time key. -/
def addToGroups : List (String × List String) → String → String →
    List (String × List String)
  | [], t, n => [(t, [n])]
  | (t', ns) :: rest, t, n =>
    if t' = t then (t', ns ++ [n]) :: rest else (t', ns) :: addToGroups rest t n

/-- The first loop of `medcheck`, building the `times` dict. -/
def timesGroupsAux (g : List (String × List String)) :
    List Med → List (String × List String)
  | [] => g
  | m :: rest => timesGroupsAux (addToGroups g m.effTime m.name) rest

/-- The `times` dict of `medcheck` after the grouping loop. -/
def timesGroups (meds : List Med) : List (String × List String) :=
  timesGroupsAux [] meds

/-- `medcheck(meds)` from `src/tools/medcheck_tool.py`: timing-conflict
flags for every time group with more than one medication, then the two
hard-coded interaction rules. -/
def medcheck (meds : List Med) : List MedFlag :=
  let names := meds.map Med.name
  (((timesGroups meds).filter (fun g => g.2.length > 1)).map
      (fun g => MedFlag.timing_conflict g.1 g.2))
  ++ (if names.contains "Warfarin" && names.contains "Aspirin" then
        [MedFlag.interaction ["Warfarin", "Aspirin"] "high" "Bleeding risk"]
      else [])
  ++ (if names.contains "Metformin" && names.contains "Contrast" then
        [MedFlag.interaction ["Metformin", "Contrast"] "moderate"
          "Consider holding Metformin around contrast imaging"]
      else [])

/-- Is this flag a timing conflict? -/
def MedFlag.isTimingConflict : MedFlag → Bool
  | .timing_conflict _ _ => true
  | .interaction _ _ _ => false

/-- Is this flag a timing conflict at the given time? -/
def MedFlag.isTimingConflictAt (t : String) : MedFlag → Bool
  | .timing_conflict t' _ => t' = t
  | .interaction _ _ _ => false

/-- Group lookup in the `times` association list. -/
def lookupG (t : String) (g : List (String × List String)) :
    Option (List String) :=
  (g.find? (fun p => p.1 = t)).map Prod.snd

theorem lookupG_addToGroups_same (g : List (String × List String))
    (t n : String) :
    lookupG t (addToGroups g t n) = some ((lookupG t g).getD [] ++ [n]) := by
  induction g with
  | nil => simp [addToGroups, lookupG]
  | cons p rest ih =>
    obtain ⟨t', ns⟩ := p
    by_cases h : t' = t
    · subst h; simp [addToGroups, lookupG]
    · simp [addToGroups, lookupG, h] at ih ⊢
      exact ih

theorem lookupG_addToGroups_ne (g : List (String × List String))
    (t t' n : String) (h : t' ≠ t) :
    lookupG t' (addToGroups g t n) = lookupG t' g := by
  induction g with
  | nil =>
    have hd : (decide (t = t') : Bool) = false :=
      decide_eq_false (fun hh => h hh.symm)
    simp [addToGroups, lookupG, List.find?, hd]
  | cons p rest ih =>
    obtain ⟨t'', ns⟩ := p
    by_cases h2 : t'' = t
    · subst h2
      have hd : (decide (t'' = t') : Bool) = false :=
        decide_eq_false (fun hh => h hh.symm)
      simp [addToGroups, lookupG, List.find?, hd]
    · by_cases h3 : t'' = t'
      · subst h3; simp [addToGroups, lookupG, List.find?, h2]
      · simp [addToGroups, lookupG, List.find?, h2, h3] at ih ⊢
        exact ih

theorem keys_addToGroups (g : List (String × List String)) (t n : String) :
    (addToGroups g t n).map Prod.fst =
      if t ∈ g.map Prod.fst then g.map Prod.fst
      else g.map Prod.fst ++ [t] := by
  induction g with
  | nil => simp [addToGroups]
  | cons p rest ih =>
    obtain ⟨t', ns⟩ := p
    by_cases h : t' = t
    · subst h; simp [addToGroups]
    · have ht : ¬t = t' := fun hh => h hh.symm
      simp [addToGroups, h, ih, ht]
      by_cases hm : t ∈ rest.map Prod.fst <;> simp [hm, ht]

theorem keysNodup_timesGroupsAux (meds : List Med) :
    ∀ g : List (String × List String), (g.map Prod.fst).Nodup →
      ((timesGroupsAux g meds).map Prod.fst).Nodup := by
  induction meds with
  | nil => intro g hg; simpa [timesGroupsAux] using hg
  | cons m rest ih =>
    intro g hg
    simp only [timesGroupsAux]
    apply ih
    rw [keys_addToGroups]
    by_cases hm : m.effTime ∈ g.map Prod.fst <;>
      simp [hm, hg, List.nodup_append]

theorem lookupG_timesGroupsAux (meds : List Med) :
    ∀ (g : List (String × List String)) (t : String),
      lookupG t (timesGroupsAux g meds) =
        if lookupG t g = none ∧ (meds.filter (fun m => m.effTime = t)) = []
        then none
        else some ((lookupG t g).getD [] ++
          ((meds.filter (fun m => m.effTime = t)).map Med.name)) := by
  induction meds with
  | nil =>
    intro g t
    by_cases h : lookupG t g = none
    · simp [timesGroupsAux, h]
    · obtain ⟨ns, hns⟩ := Option.ne_none_iff_exists'.mp h
      simp [timesGroupsAux, hns]
  | cons m rest ih =>
    intro g t
    by_cases h : m.effTime = t
    · have hsame : lookupG t (addToGroups g t m.name)
          = some ((lookupG t g).getD [] ++ [m.name]) :=
        lookupG_addToGroups_same g t m.name
      simp only [timesGroupsAux, h, ih (addToGroups g t m.name) t, hsame]
      simp [List.filter_cons, h]
    · have hne : lookupG t (addToGroups g m.effTime m.name) = lookupG t g :=
        lookupG_addToGroups_ne g m.effTime t m.name (fun hh => h hh.symm)
      simp only [timesGroupsAux, ih (addToGroups g m.effTime m.name) t, hne]
      simp [List.filter_cons, h]

theorem filter_key_eq_single (g : List (String × List String))
    (t : String) (ns : List String)
    (hnd : (g.map Prod.fst).Nodup) (h : lookupG t g = some ns) :
    g.filter (fun p => p.1 = t) = [(t, ns)] := by
  induction g with
  | nil => simp [lookupG] at h
  | cons p rest ih =>
    obtain ⟨t', ns'⟩ := p
    by_cases heq : t' = t
    · subst heq
      simp [lookupG, List.find?] at h
      subst h
      simp only [List.map_cons, List.nodup_cons] at hnd
      have hrest : rest.filter (fun p => p.1 = t') = [] := by
        rw [List.filter_eq_nil_iff]
        intro p hp
        simp only [decide_eq_true_eq]
        intro hc
        exact hnd.1 (hc ▸ List.mem_map_of_mem Prod.fst hp)
      simp [List.filter_cons, hrest]
    · have hd : (decide (t' = t) : Bool) = false := decide_eq_false heq
      simp only [lookupG, List.find?, hd] at h
      simp only [List.map_cons, List.nodup_cons] at hnd
      have := ih hnd.2 (by simpa [lookupG] using h)
      simp [List.filter_cons, hd, this]

/-- C5: for every medication list containing exactly two entries that share
an identical `time` string, the flag list returned by `medcheck` contains
exactly one flag of type `timing_conflict` for that time, and that flag's
medication list names both medications. -/
theorem medcheck_two_same_time (m₁ m₂ : Med) (t : String)
    (h₁ : m₁.time = some t) (h₂ : m₂.time = some t) :
    (medcheck [m₁, m₂]).filter MedFlag.isTimingConflict
      = [MedFlag.timing_conflict t [m₁.name, m₂.name]] ∧
    m₁.name ∈ [m₁.name, m₂.name] ∧ m₂.name ∈ [m₁.name, m₂.name] := by
  have e₁ : m₁.effTime = t := by simp [Med.effTime, h₁]
  have e₂ : m₂.effTime = t := by simp [Med.effTime, h₂]
  refine ⟨?_, by simp, by simp⟩
  have hg : timesGroups [m₁, m₂] = [(t, [m₁.name, m₂.name])] := by
    simp [timesGroups, timesGroupsAux, addToGroups, e₁, e₂]
  simp only [medcheck, hg, List.filter_append]
  split <;> split <;>
    simp [MedFlag.isTimingConflict, List.filter_cons]

/-- Witness for `medcheck_two_same_time` at a concrete input. -/
theorem medcheck_two_same_time_witness :
    (medcheck [⟨"Warfarin", some "08:00"⟩, ⟨"Aspirin", some "08:00"⟩]).filter
        MedFlag.isTimingConflict
      = [MedFlag.timing_conflict "08:00" ["Warfarin", "Aspirin"]] ∧
    "Warfarin" ∈ ["Warfarin", "Aspirin"] ∧
    "Aspirin" ∈ ["Warfarin", "Aspirin"] := by
  have h := medcheck_two_same_time ⟨"Warfarin", some "08:00"⟩
    ⟨"Aspirin", some "08:00"⟩ "08:00" rfl rfl
  exact h

/-- C9: for every medication list in which two or more entries have no
`time` field at all, `medcheck` treats each missing time as `"00:00"` and
returns a `timing_conflict` flag with time `"00:00"` whose medication list
names all medications that omitted a time. -/
theorem medcheck_missing_times (meds : List Med)
    (h2 : 2 ≤ (meds.filter (fun m => m.time = none)).length) :
    ∃ ns, (medcheck meds).filter (MedFlag.isTimingConflictAt "00:00")
        = [MedFlag.timing_conflict "00:00" ns] ∧
      ∀ m ∈ meds, m.time = none → m.name ∈ ns := by
  classical
  set ns : List String :=
    (meds.filter (fun m => m.effTime = "00:00")).map Med.name with hns
  have hmono : (meds.filter (fun m => m.time = none)).length
      ≤ (meds.filter (fun m => m.effTime = "00:00")).length := by
    rw [← List.countP_eq_length_filter, ← List.countP_eq_length_filter]
    apply List.countP_mono_left
    intro m _ hm
    simp only [decide_eq_true_eq] at hm ⊢
    simp [Med.effTime, hm]
  have hlen : 2 ≤ (meds.filter (fun m => m.effTime = "00:00")).length :=
    le_trans h2 hmono
  have hfne : meds.filter (fun m => m.effTime = "00:00") ≠ [] := by
    intro hc; rw [hc] at hlen; simp at hlen
  have hlk : lookupG "00:00" (timesGroups meds) = some ns := by
    rw [timesGroups, lookupG_timesGroupsAux meds [] "00:00"]
    have hcond : ¬(lookupG "00:00" [] = none ∧
        meds.filter (fun m => m.effTime = "00:00") = []) := by
      intro hc; exact hfne hc.2
    rw [if_neg hcond]
    simp [lookupG, hns]
  have hnd : ((timesGroups meds).map Prod.fst).Nodup :=
    keysNodup_timesGroupsAux meds [] (by simp)
  have hfil : (timesGroups meds).filter (fun p => p.1 = "00:00")
      = [("00:00", ns)] := filter_key_eq_single _ _ _ hnd hlk
  have hnslen : 1 < ns.length := by
    rw [hns, List.length_map]; omega
  refine ⟨ns, ?_, ?_⟩
  · simp only [medcheck, List.filter_append]
    have hint : ∀ l : List MedFlag,
        (∀ f ∈ l, MedFlag.isTimingConflictAt "00:00" f = false) →
          l.filter (MedFlag.isTimingConflictAt "00:00") = [] := by
      intro l hl; rw [List.filter_eq_nil_iff]; intro f hf; simp [hl f hf]
    have h₁ : (if (meds.map Med.name).contains "Warfarin"
          && (meds.map Med.name).contains "Aspirin" then
          [MedFlag.interaction ["Warfarin", "Aspirin"] "high" "Bleeding risk"]
        else []).filter (MedFlag.isTimingConflictAt "00:00") = [] := by
      apply hint; split <;> simp [MedFlag.isTimingConflictAt]
    have h₂ : (if (meds.map Med.name).contains "Metformin"
          && (meds.map Med.name).contains "Contrast" then
          [MedFlag.interaction ["Metformin", "Contrast"] "moderate"
            "Consider holding Metformin around contrast imaging"]
        else []).filter (MedFlag.isTimingConflictAt "00:00") = [] := by
      apply hint; split <;> simp [MedFlag.isTimingConflictAt]
    rw [h₁, h₂, List.append_nil, List.append_nil]
    rw [List.filter_map]
    have hcomp : (MedFlag.isTimingConflictAt "00:00" ∘
        fun g => MedFlag.timing_conflict g.1 g.2)
        = fun p : String × List String => decide (p.1 = "00:00") := by
      funext p; simp [MedFlag.isTimingConflictAt]
    rw [hcomp, List.filter_filter]
    have hone : (timesGroups meds).filter
        (fun a => decide (a.1 = "00:00") && decide (a.2.length > 1))
        = [("00:00", ns)] := by
      rw [List.filter_congr (fun x _ => Bool.and_comm _ _),
        ← List.filter_filter, hfil]
      simp [List.filter_cons, hnslen]
    rw [hone]
    simp
  · intro m hm hmt
    rw [hns]
    apply List.mem_map_of_mem
    rw [List.mem_filter]
    exact ⟨hm, by simp [Med.effTime, hmt]⟩

/-- Witness for `medcheck_missing_times` at a concrete input. -/
theorem medcheck_missing_times_witness :
    ∃ ns, (medcheck [⟨"A", none⟩, ⟨"B", none⟩]).filter
        (MedFlag.isTimingConflictAt "00:00")
        = [MedFlag.timing_conflict "00:00" ns] ∧
      ∀ m ∈ [Med.mk "A" none, Med.mk "B" none],
        m.time = none → m.name ∈ ns :=
  medcheck_missing_times [⟨"A", none⟩, ⟨"B", none⟩] (by decide)

/-!
## Event Store — `src/memory/memory_bank.py`

The store maps user ids to ordered lists of events (Python dicts).  An
event is modelled as an association list `List (String × Val)` with the
dict operations defined above.  `append_user_event` does
`store.setdefault(user_id, [])`, copies the event, defaults `recorded_at`
to the current time, appends, and rewrites the file; `get_user_memory`
is `store.get(user_id, [])`.  The `time.time()` value at append time is
passed in explicitly as `now`.
-/

/-- An event: a Python dict with string keys. -/
abbrev EventObj := List (String × Val)

/-- The in-memory store `self.store`: user id → event list, as an
association list (a JSON object). -/
abbrev Store := List (String × List EventObj)

/-- Update the store entry for `uid` by appending the event, creating the
entry when absent (`store.setdefault(user_id, []); store[user_id].append(e)`). -/
def storeAppend : Store → String → EventObj → Store
  | [], uid, e => [(uid, [e])]
  | (u, evs) :: rest, uid, e =>
    if u = uid then (u, evs ++ [e]) :: rest
    else (u, evs) :: storeAppend rest uid e

/-- `MemoryBank.append_user_event(user_id, event)`: copy the event,
default `recorded_at` to the append-time clock value `now`, and append it
to the user's list. -/
def append_user_event (s : Store) (uid : String) (event : EventObj)
    (now : Val) : Store :=
  storeAppend s uid (dictSetdefault event "recorded_at" now)

/-- `MemoryBank.get_user_memory(user_id)`: `self.store.get(user_id, [])`. -/
def get_user_memory (s : Store) (uid : String) : List EventObj :=
  match s.find? (fun p => p.1 = uid) with
  | some p => p.2
  | none => []

/-- The store created for a fresh file (`json.dump({}, f)`), and the store
recovered from a corrupt file (`self.store = {}`). -/
def emptyStore : Store := []

theorem get_storeAppend_same (s : Store) (uid : String) (e : EventObj) :
    get_user_memory (storeAppend s uid e) uid
      = get_user_memory s uid ++ [e] := by
  induction s with
  | nil => simp [storeAppend, get_user_memory, List.find?]
  | cons p rest ih =>
    obtain ⟨u, evs⟩ := p
    by_cases h : u = uid
    · subst h; simp [storeAppend, get_user_memory, List.find?]
    · have hd : (decide (u = uid) : Bool) = false := decide_eq_false h
      simp only [storeAppend, h, if_false, get_user_memory, List.find?,
        hd] at ih ⊢
      exact ih

theorem get_storeAppend_other (s : Store) (uid u' : String) (e : EventObj)
    (h : u' ≠ uid) :
    get_user_memory (storeAppend s uid e) u' = get_user_memory s u' := by
  induction s with
  | nil =>
    have hd : (decide (uid = u') : Bool) =
        false := decide_eq_false (fun hh => h hh.symm)
    simp [storeAppend, get_user_memory, List.find?, hd]
  | cons p rest ih =>
    obtain ⟨u, evs⟩ := p
    by_cases h2 : u = uid
    · subst h2
      have hd : (decide (u = u') : Bool) =
          false := decide_eq_false (fun hh => h hh.symm)
      simp [storeAppend, get_user_memory, List.find?, hd]
    · by_cases h3 : u = u'
      · subst h3; simp [storeAppend, get_user_memory, List.find?, h2]
      · have hd : (decide (u = u') : Bool) = false := decide_eq_false h3
        simp only [storeAppend, h2, if_false, get_user_memory,
          List.find?, hd] at ih ⊢
        exact ih

/-- C7: appending an event via `append_user_event` and then reading the
user's memory via `get_user_memory` yields a sequence whose last element
is the appended event, except that a `recorded_at` field with the
append-time timestamp is added when the event did not already have one;
all previously stored events for that user are still present, in order,
before it. -/
theorem append_then_get_roundtrip (s : Store) (uid : String)
    (event : EventObj) (now : Val) :
    get_user_memory (append_user_event s uid event now) uid
      = get_user_memory s uid ++ [dictSetdefault event "recorded_at" now] ∧
    (hasKey event "recorded_at" = true →
      (get_user_memory (append_user_event s uid event now) uid).getLast?
        = some event) ∧
    (hasKey event "recorded_at" = false →
      (get_user_memory (append_user_event s uid event now) uid).getLast?
        = some (event ++ [("recorded_at", now)])) := by
  have hget := get_storeAppend_same s uid
    (dictSetdefault event "recorded_at" now)
  refine ⟨hget, ?_, ?_⟩
  · intro hk
    rw [append_user_event, hget, List.getLast?_append]
    simp [dictSetdefault, hk]
  · intro hk
    rw [append_user_event, hget, List.getLast?_append]
    simp [dictSetdefault, hk]

/-- Witness for `append_then_get_roundtrip` at a concrete input. -/
theorem append_then_get_roundtrip_witness :
    get_user_memory (append_user_event
        [("u1", [[("type", Val.str "old")]])] "u1"
        [("type", Val.str "adherence_event")] (Val.num 7)) "u1"
      = [[("type", Val.str "old")],
         [("type", Val.str "adherence_event"), ("recorded_at", Val.num 7)]] ∧
    ((get_user_memory (append_user_event
        [("u1", [[("type", Val.str "old")]])] "u1"
        [("type", Val.str "adherence_event")] (Val.num 7)) "u1").getLast?
      = some [("type", Val.str "adherence_event"),
              ("recorded_at", Val.num 7)]) := by
  have h := append_then_get_roundtrip
    [("u1", [[("type", Val.str "old")]])] "u1"
    [("type", Val.str "adherence_event")] (Val.num 7)
  refine ⟨?_, h.2.2 rfl⟩
  rw [h.1]
  rfl

/-- C8 counterexample: `append_user_event` defaults `recorded_at` but does
not add a `user_id` field.  Appending the event `{"type": "x"}` (which has
no `user_id`) stores an event without a `user_id` field, refuting
"after any append every stored Event has both `user_id` and `recorded_at`". -/
theorem append_no_user_id_counterexample :
    get_user_memory (append_user_event emptyStore "u1"
        [("type", Val.str "x")] (Val.num 5)) "u1"
      = [[("type", Val.str "x"), ("recorded_at", Val.num 5)]] ∧
    hasKey [("type", Val.str "x"), ("recorded_at", Val.num 5)] "user_id"
      = false := by
  exact ⟨rfl, rfl⟩

/-- C8 amended: after any append, the newly stored event has a
`recorded_at` field and all previously stored events are unchanged, so the
invariant "every stored event has `recorded_at`" is preserved (a `user_id`
field is guaranteed only when the caller supplies one, as every caller in
the repository does); and `get_user_memory` on the empty store returns the
empty sequence, never an absent or null value. -/
theorem append_recorded_at_invariant (s : Store) (uid : String)
    (event : EventObj) (now : Val)
    (hinv : ∀ u ev, ev ∈ get_user_memory s u →
      hasKey ev "recorded_at" = true) :
    (∀ u ev, ev ∈ get_user_memory (append_user_event s uid event now) u →
      hasKey ev "recorded_at" = true) ∧
    get_user_memory emptyStore uid = [] := by
  refine ⟨?_, rfl⟩
  intro u ev hev
  by_cases hu : u = uid
  · subst hu
    rw [append_user_event, get_storeAppend_same] at hev
    rcases List.mem_append.mp hev with h | h
    · exact hinv u ev h
    · simp only [List.mem_singleton] at h
      subst h
      by_cases hk : hasKey event "recorded_at"
      · simp [dictSetdefault, hk]
      · have hk' : hasKey event "recorded_at" = false := by simpa using hk
        simp only [dictSetdefault, hk', if_false]
        simp [hasKey, List.any_append]
  · rw [append_user_event, get_storeAppend_other s uid u _ hu] at hev
    exact hinv u ev hev

/-- Witness for `append_recorded_at_invariant` at a concrete input. -/
theorem append_recorded_at_invariant_witness :
    (∀ u ev, ev ∈ get_user_memory (append_user_event emptyStore "u1"
        [("type", Val.str "x")] (Val.num 5)) u →
      hasKey ev "recorded_at" = true) ∧
    get_user_memory emptyStore "u1" = [] := by
  refine append_recorded_at_invariant emptyStore "u1"
    [("type", Val.str "x")] (Val.num 5) ?_
  intro u ev hev
  simp [get_user_memory, emptyStore] at hev

/-!
## Remote Model Gateway — `src/agents/convo_agent.py`, `call_gemini`
-/

/-- `call_gemini` when no API credential is configured
(`if not self.GEMINI_API_KEY:` branch):
`return "SIMULATED MODEL RESPONSE: " + (prompt[:200] + "...")`. -/
def call_gemini_no_key (prompt : String) : String :=
  "SIMULATED MODEL RESPONSE: " ++ (pyTake 200 prompt ++ "...")

/-- C2: with no API credential configured, `call_gemini` returns (without
raising) a string that starts with `"SIMULATED MODEL RESPONSE:"` and
contains a copy of the prompt truncated to at most 200 characters. -/
theorem call_gemini_no_key_spec (prompt : String) :
    strStartsWith (call_gemini_no_key prompt)
      "SIMULATED MODEL RESPONSE:" = true ∧
    strContains (call_gemini_no_key prompt) (pyTake 200 prompt) = true ∧
    (pyTake 200 prompt).length ≤ 200 := by
  have hsp : ("SIMULATED MODEL RESPONSE: " : String).data
      = ("SIMULATED MODEL RESPONSE:" : String).data ++ [' '] := rfl
  have hdata : (call_gemini_no_key prompt).data
      = ("SIMULATED MODEL RESPONSE:" : String).data
        ++ ([' '] ++ (prompt.data.take 200 ++ ("..." : String).data)) := by
    simp [call_gemini_no_key, pyTake, String.data_append, hsp]
  refine ⟨?_, ?_, ?_⟩
  · rw [strStartsWith, hdata]
    simp
  · have ht : (pyTake 200 prompt).data = prompt.data.take 200 := rfl
    rw [strContains, ht, hdata]
    rw [decide_eq_true_eq]
    exact ⟨("SIMULATED MODEL RESPONSE:" : String).data ++ [' '],
      ("..." : String).data, by simp⟩
  · have hl : (pyTake 200 prompt).length = (prompt.data.take 200).length :=
      rfl
    rw [hl, List.length_take]
    omega

/-- Python `x[0]` as used on `candidates`/`parts`: first element of a
list, first character of a string; any other receiver raises (modelled as
`none`, which the surrounding `try`/`except` turns into the fallback
path). -/
def index0 : Val → Option Val
  | .list (x :: _) => some x
  | .list [] => none
  | .str s =>
    match s.data with
    | c :: _ => some (Val.str (String.mk [c]))
    | [] => none
  | _ => none

/-- Python `==` comparison of a value against a string literal: only a
string with the same contents compares equal. -/
def Val.eqStr : Val → String → Bool
  | .str s, t => s = t
  | _, _ => false

/-- Is the value a Python `str`? (`isinstance(x, str)`). -/
def Val.isStr : Val → Bool
  | .str _ => true
  | _ => false

/-- Python iteration (`for x in v`) over the shapes this program can
meet: a list yields its elements, a string its characters, a dict its
keys; anything else raises `TypeError` (modelled `none`). -/
def iterVals : Val → Option (List Val)
  | .list l => some l
  | .str s => some (s.data.map (fun c => Val.str (String.mk [c])))
  | .obj kvs => some (kvs.map (fun kv => Val.str kv.1))
  | _ => none

/-- Python `sep.join(vs)`: raises `TypeError` (modelled `none`) unless
every element is a string. -/
def joinValStrs (sep : String) (vs : List Val) : Option String := do
  let strs ← vs.mapM (fun v => match v with
    | Val.str s => some s
    | _ => none)
  return joinSep sep strs

/-- Strategies (a)+(b) of `extract_text`: the `if candidates:` block.
`some (some v)` means the block returned `v`; `some none` means it fell
through to the top-level strategies; `none` means an exception occurred
(so `extract_text` returns `None` without trying later strategies). -/
def extractFromCandidates (candidates : Val) : Option (Option Val) :=
  if candidates.truthy then
    match index0 candidates with
    | none => none
    | some c0 =>
      match c0 with
      | .obj c0kvs =>
        match pyOr (dictGet c0kvs "content") (.obj []) with
        | .obj ckvs =>
          let parts := pyOr (dictGet ckvs "parts") (.list [])
          let fromParts : Option (Option Val) :=
            if parts.truthy then
              match index0 parts with
              | none => none
              | some first =>
                match first with
                | .obj fkvs =>
                  if hasKey fkvs "text" then some (some (dictGet fkvs "text"))
                  else some none
                | .str s => some (some (.str s))
                | _ => some none
            else some none
          match fromParts with
          | none => none
          | some (some v) => some (some v)
          | some none =>
            match dictGet c0kvs "output" with
            | .str s => some (some (.str s))
            | _ => some none
        | _ => none
      | _ => none
  else some none

/-- The `messages` part of `extract_text`: for each message dict, collect
`c["text"]` for every dict `c` with a `"text"` key in
`m.get("content") or []`. `none` models an exception. -/
def collectTexts : List Val → Option (List Val)
  | [] => some []
  | m :: rest =>
    match m with
    | .obj mkvs => do
      let items ← iterVals (pyOr (dictGet mkvs "content") (.list []))
      let ts := items.filterMap (fun c =>
        match c with
        | .obj ckvs =>
          if hasKey ckvs "text" then some (dictGet ckvs "text") else none
        | _ => none)
      let rest' ← collectTexts rest
      return ts ++ rest'
    | _ => none

/-- Strategy (d) of `extract_text`: the `if "messages" in d:` block.
Returns the newline join of the collected texts when non-empty; `none`
otherwise (fall-through and exceptions both end in `return None`). -/
def extractMessages (kvs : List (String × Val)) : Option Val :=
  if hasKey kvs "messages" then
    match iterVals (dictGetD kvs "messages" (.list [])) with
    | none => none
    | some ms =>
      match collectTexts ms with
      | none => none
      | some texts =>
        if texts.isEmpty then none
        else
          match joinValStrs "\n" texts with
          | none => none
          | some s => some (.str s)
  else none

/-- `extract_text(d)` from `call_gemini`: try, in order, the first
candidate's first content part (`text` field or plain string), a
candidate-level `output` string, a top-level `output_text` string, and
the concatenation of `messages` text fragments; any exception returns
`None` (`none`). -/
def extract_text (d : Val) : Option Val :=
  match d with
  | .obj kvs =>
    match extractFromCandidates (pyOr (dictGet kvs "candidates") (.list [])) with
    | none => none
    | some (some v) => some v
    | some none =>
      if hasKey kvs "output_text" && (dictGet kvs "output_text").isStr then
        some (dictGet kvs "output_text")
      else extractMessages kvs
  | _ => none

/-- `(body_json.get("candidates") or [None])[0]` from the truncation
check of `call_gemini`; `none` models an exception there (caught by
`except: pass`). -/
def truncCand0 (body : Val) : Option Val :=
  match body with
  | .obj kvs => index0 (pyOr (dictGet kvs "candidates") (.list [.null]))
  | _ => none

/-- The note appended to truncated-but-extracted model text. -/
def truncNote : String :=
  "\n\n---\n(Note: model truncated by MAX_TOKENS; consider raising max_output_tokens)"

/-- The sentinel for a MAX_TOKENS candidate with no extractable text. -/
def MODEL_TRUNCATED_MSG : String :=
  "MODEL_TRUNCATED: Increase max_output_tokens. Partial candidate logged."

/-- The sentinel for a body no strategy could parse. -/
def UNPARSEABLE_MSG : String :=
  "SIMULATED MODEL RESPONSE (unparseable). See logs."

/-- `call_gemini` from the point where the HTTP response has status 200
and a body that parsed as JSON and is truthy: run `extract_text`, handle
the `finishReason == "MAX_TOKENS"` case, else return the extracted text
or the `unparseable` sentinel.  The result is a `Val`: one exotic path
(`out + note` raising on a truthy non-string `out`, caught by
`except: pass`, then `return out`) returns the extracted value itself. -/
def call_gemini_on_body (body : Val) : Val :=
  let out := extract_text body
  let truncated : Option Val :=
    match truncCand0 body with
    | some cand0 =>
      match cand0 with
      | .obj ckvs =>
        if cand0.truthy
            && Val.eqStr (dictGet ckvs "finishReason") "MAX_TOKENS" then
          match out with
          | some o =>
            if o.truthy then
              match o with
              | .str s => some (.str (s ++ truncNote))
              | _ => none
            else some (.str MODEL_TRUNCATED_MSG)
          | none => some (.str MODEL_TRUNCATED_MSG)
        else none
      | _ => none
    | none => none
  match truncated with
  | some r => r
  | none =>
    match out with
    | some o =>
      if o.truthy then o else .str UNPARSEABLE_MSG
    | none => .str UNPARSEABLE_MSG

/-- C3: for every successfully parsed response body whose first candidate
is a (truthy) dict declaring finish reason MAX_TOKENS: if the extraction
strategies yield a non-empty string, `call_gemini` returns that string
with the appended note advising a larger `max_output_tokens`; if no text
could be extracted, it returns the exact `MODEL_TRUNCATED` sentinel. -/
theorem call_gemini_max_tokens (body : Val) (ckvs : List (String × Val))
    (hc : truncCand0 body = some (Val.obj ckvs))
    (ht : (Val.obj ckvs).truthy = true)
    (hfr : dictGet ckvs "finishReason" = Val.str "MAX_TOKENS") :
    (∀ s : String, extract_text body = some (.str s) → s ≠ "" →
      call_gemini_on_body body = .str (s ++ truncNote)) ∧
    ((extract_text body = none ∨ extract_text body = some (.str "")) →
      call_gemini_on_body body = .str MODEL_TRUNCATED_MSG) := by
  have heq : Val.eqStr (dictGet ckvs "finishReason") "MAX_TOKENS" = true := by
    rw [hfr]; simp [Val.eqStr]
  constructor
  · intro s hs hne
    have hie : s.isEmpty = false := by
      cases hb : s.isEmpty
      · rfl
      · exact absurd ((String.isEmpty_iff s).mp hb) hne
    have hst : (Val.str s).truthy = true := by
      simp [Val.truthy, hie]
    simp only [call_gemini_on_body, hc, ht, heq, hs, hst,
      Bool.and_self, if_true]
  · intro hcase
    rcases hcase with h | h
    · simp only [call_gemini_on_body, hc, ht, heq, h, Bool.and_self,
        if_true]
    · have hst : (Val.str "").truthy = false := rfl
      simp only [call_gemini_on_body, hc, ht, heq, h, hst,
        Bool.and_self, if_true, Bool.false_eq_true, if_false]

/-- Witness for `call_gemini_max_tokens`: a truncated body with an
extractable part and one without. -/
theorem call_gemini_max_tokens_witness :
    call_gemini_on_body (.obj [("candidates", .list [.obj [("content",
        .obj [("parts", .list [.obj [("text", Val.str "hi")]])]),
        ("finishReason", Val.str "MAX_TOKENS")]])])
      = .str ("hi" ++ truncNote) ∧
    call_gemini_on_body (.obj [("candidates", .list [.obj
        [("finishReason", Val.str "MAX_TOKENS")]])])
      = .str MODEL_TRUNCATED_MSG := by
  constructor
  · exact (call_gemini_max_tokens
      (.obj [("candidates", .list [.obj [("content",
        .obj [("parts", .list [.obj [("text", Val.str "hi")]])]),
        ("finishReason", Val.str "MAX_TOKENS")]])])
      [("content", .obj [("parts", .list [.obj [("text", Val.str "hi")]])]),
       ("finishReason", Val.str "MAX_TOKENS")]
      rfl rfl rfl).1 "hi" rfl (by decide)
  · exact (call_gemini_max_tokens
      (.obj [("candidates", .list [.obj
        [("finishReason", Val.str "MAX_TOKENS")]])])
      [("finishReason", Val.str "MAX_TOKENS")]
      rfl rfl rfl).2 (Or.inl rfl)

/-!
## Memory-First Responder — `src/agents/convo_agent.py`
-/

mutual
/-- Python `json.dumps` of a value, with the default `", "` / `": "`
separators (string escaping elided; the events this program stores carry
plain text). Used by `search_memory` for substring matching. -/
def jsonDumps : Val → String
  | .str s => "\"" ++ s ++ "\""
  | .num n => toString n
  | .bool b => if b then "true" else "false"
  | .null => "null"
  | .list vs => "[" ++ joinSep ", " (jsonDumpsList vs) ++ "]"
  | .obj kvs => "\x7b" ++ joinSep ", " (jsonDumpsPairs kvs) ++ "\x7d"

/-- `json.dumps` of the elements of a list. -/
def jsonDumpsList : List Val → List String
  | [] => []
  | v :: rest => jsonDumps v :: jsonDumpsList rest

/-- `json.dumps` of the entries of a dict. -/
def jsonDumpsPairs : List (String × Val) → List String
  | [] => []
  | (k, v) :: rest =>
    ("\"" ++ k ++ "\": " ++ jsonDumps v) :: jsonDumpsPairs rest
end

mutual
/-- Python `repr` of a value (quote escaping elided), as produced inside
`str(dict)` / `str(list)`. -/
def pyRepr : Val → String
  | .str s => "\x27" ++ s ++ "\x27"
  | .num n => toString n
  | .bool b => if b then "True" else "False"
  | .null => "None"
  | .list vs => "[" ++ joinSep ", " (pyReprList vs) ++ "]"
  | .obj kvs => "\x7b" ++ joinSep ", " (pyReprPairs kvs) ++ "\x7d"

/-- `repr` of the elements of a list. -/
def pyReprList : List Val → List String
  | [] => []
  | v :: rest => pyRepr v :: pyReprList rest

/-- `repr` of the entries of a dict. -/
def pyReprPairs : List (String × Val) → List String
  | [] => []
  | (k, v) :: rest =>
    ("\x27" ++ k ++ "\x27: " ++ pyRepr v) :: pyReprPairs rest
end

/-- Python `str(v)` (as interpolated by f-strings): the string itself for
a `str`, `repr`-style rendering otherwise. -/
def pyStr : Val → String
  | .str s => s
  | .num n => toString n
  | .bool b => if b then "True" else "False"
  | .null => "None"
  | .list vs => "[" ++ joinSep ", " (pyReprList vs) ++ "]"
  | .obj kvs => "\x7b" ++ joinSep ", " (pyReprPairs kvs) ++ "\x7d"

/-- The query tokens of `search_memory`:
`[t.lower() for t in re.findall(r"\w+", query) if len(t) > 2][:10]`. -/
def queryTokens (query : String) : List String :=
  ((((findallWords query).filter (fun t => t.length > 2)).map
    pyLower)).take 10

/-- The match loop of `search_memory`: walk events newest first, keep an
event when any token occurs in its lowercased JSON serialization, stop as
soon as `max_results` matches are collected. -/
def searchLoop (toks : List String) (maxR : Nat) :
    List EventObj → List EventObj → List EventObj
  | [], acc => acc
  | ev :: rest, acc =>
    let acc' := if toks.any (fun t =>
        strContains (pyLower (jsonDumps (.obj ev))) t) then acc ++ [ev]
      else acc
    if maxR ≤ acc'.length then acc' else searchLoop toks maxR rest acc'

/-- `search_memory(user_id, query, max_results)` applied to the events
the method fetches via `self.memory.get_user_memory(user_id)`. -/
def search_memory (events : List EventObj) (query : String)
    (max_results : Nat) : List EventObj :=
  if events.isEmpty then []
  else
    let q_tokens := queryTokens query
    if q_tokens.isEmpty then []
    else searchLoop q_tokens max_results events.reverse []

/-- Python `v[:6]` followed by iteration, as applied to
`ev.get("keywords", [])`: slicing a list keeps the first six elements,
slicing a string keeps its first six characters (iterated as one-char
strings); any other receiver raises (`none`). -/
def pySlice6 : Val → Option (List Val)
  | .list l => some (l.take 6)
  | .str s => some ((s.data.take 6).map (fun c => Val.str (String.mk [c])))
  | _ => none

/-- One bullet of `summarize_events` (the body of its `for ev in events`
loop).  `fmt` is the environment-dependent
`time.strftime("%Y-%m-%d %H:%M", time.localtime(float(ts)))`, `none` when
that raises (then the raw value is used).  A result of `none` models an
uncaught `TypeError` from the keyword / specialty joins. -/
def bulletOf (fmt : Val → Option String) (ev : EventObj) : Option String :=
  let tp := dictGetD ev "type" (Val.str "event")
  if tp.eqStr "adherence_event" then
    let med := pyOr (dictGet ev "med") (pyOr (dictGet ev "med_name") (.str ""))
    let ts := pyOr (dictGet ev "timestamp")
      (pyOr (dictGet ev "recorded_at") (pyOr (dictGet ev "time") (.str "")))
    let human_ts := (fmt ts).getD (pyStr ts)
    some ("- Took " ++ pyStr med ++ " at " ++ human_ts)
  else if tp.eqStr "uploaded_doc_summary" then do
    let kws ← pySlice6 (dictGetD ev "keywords" (.list []))
    let meds ← joinValStrs ", " kws
    let specsItems ← iterVals (dictGetD ev "suggested_specialties" (.list []))
    let specs ← joinValStrs ", " specsItems
    return ("- Uploaded doc keywords: " ++ meds ++ ". Suggested: " ++ specs)
  else if tp.eqStr "doctor_advice" then
    let adv := dictGetD ev "advice_text" (.str "")
    let doc := dictGetD ev "doctor_id" (.str "doctor")
    some ("- Doctor " ++ pyStr doc ++ " advised: " ++ pyStr adv)
  else
    some ("- " ++ pyStr tp ++ ": " ++ pyTake 120 (pyStr (.obj ev)))

/-- `summarize_events(events, concise=True)` as invoked by the responder:
empty input gives `""`; otherwise render each event to a bullet and join
the first 20 with newlines (with `concise=True` the model-compression
branch is dead).  `none` models an uncaught exception from a malformed
`uploaded_doc_summary` event. -/
def summarize_events (fmt : Val → Option String)
    (events : List EventObj) : Option String :=
  if events.isEmpty then some ""
  else do
    let bullets ← events.mapM (bulletOf fmt)
    return joinSep "\n" (bullets.take 20)

/-- The fixed template of `respond_with_memory_first`. -/
def foundNotesTemplate (summary : String) : String :=
  "I found these saved notes related to your question:\n\n" ++ summary
    ++ "\n\nIf you want more details I can expand or ask the model to interpret these."

/-- `respond_with_memory_first(user_id, query)` given the user's stored
events, the Gateway behaviour `callGemini` and the timestamp formatter.
`none` models an exception propagating out of `summarize_events`. -/
def respond_with_memory_first (callGemini : String → String)
    (fmt : Val → Option String) (events : List EventObj)
    (query : String) : Option String :=
  let ms := search_memory events query 8
  if ms.isEmpty then some (callGemini query)
  else
    match summarize_events fmt ms with
    | none => none
    | some summary =>
      if (pyStrip summary).isEmpty then some (callGemini query)
      else some (foundNotesTemplate summary)

theorem searchLoop_length_le (toks : List String) (maxR : Nat) :
    ∀ (evs acc : List EventObj), acc.length < maxR →
      (searchLoop toks maxR evs acc).length ≤ maxR := by
  intro evs
  induction evs with
  | nil =>
    intro acc h
    simpa [searchLoop] using Nat.le_of_lt h
  | cons ev rest ih =>
    intro acc h
    by_cases hm : (toks.any (fun t =>
        strContains (pyLower (jsonDumps (.obj ev))) t)) = true
    · simp only [searchLoop, hm, if_true]
      by_cases hstop : maxR ≤ (acc ++ [ev]).length
      · rw [if_pos hstop]
        simp only [List.length_append, List.length_singleton]
        omega
      · rw [if_neg hstop]
        exact ih (acc ++ [ev]) (by omega)
    · rw [Bool.not_eq_true] at hm
      simp only [searchLoop, hm, Bool.false_eq_true, if_false]
      by_cases hstop : maxR ≤ acc.length
      · omega
      · rw [if_neg hstop]
        exact ih acc (by omega)

theorem searchLoop_sublist (toks : List String) (maxR : Nat) :
    ∀ (evs acc : List EventObj),
      ∃ l, searchLoop toks maxR evs acc = acc ++ l ∧ l.Sublist evs := by
  intro evs
  induction evs with
  | nil => intro acc; exact ⟨[], by simp [searchLoop], List.Sublist.refl []⟩
  | cons ev rest ih =>
    intro acc
    by_cases hm : (toks.any (fun t =>
        strContains (pyLower (jsonDumps (.obj ev))) t)) = true
    · simp only [searchLoop, hm, if_true]
      by_cases hstop : maxR ≤ (acc ++ [ev]).length
      · rw [if_pos hstop]
        exact ⟨[ev], by simp, by simp⟩
      · rw [if_neg hstop]
        obtain ⟨l, hl, hsub⟩ := ih (acc ++ [ev])
        exact ⟨ev :: l, by simp [hl], List.Sublist.cons₂ ev hsub⟩
    · rw [Bool.not_eq_true] at hm
      simp only [searchLoop, hm, Bool.false_eq_true, if_false]
      by_cases hstop : maxR ≤ acc.length
      · rw [if_pos hstop]
        exact ⟨[], by simp, by simp⟩
      · rw [if_neg hstop]
        obtain ⟨l, hl, hsub⟩ := ih acc
        exact ⟨l, hl, hsub.cons ev⟩

/-- C4: when invoked by the responder (`max_results = 8`), `search_memory`
returns at most 8 events, in newest-first order (an order-preserving
selection from the reversed event list); a query with no word token of
length greater than 2 yields the empty list whatever is stored; and the
query tokens are lowercased and capped at the first 10. -/
theorem search_memory_eq (events : List EventObj) (query : String)
    (maxR : Nat) :
    search_memory events query maxR =
      if events.isEmpty then []
      else if (queryTokens query).isEmpty then []
      else searchLoop (queryTokens query) maxR events.reverse [] := rfl

theorem search_memory_spec (events : List EventObj) (query : String) :
    (search_memory events query 8).length ≤ 8 ∧
    (search_memory events query 8).Sublist events.reverse ∧
    ((findallWords query).filter (fun t => t.length > 2) = [] →
      search_memory events query 8 = []) ∧
    (queryTokens query).length ≤ 10 ∧
    (∀ t ∈ queryTokens query, ∃ t₀ ∈ findallWords query,
      t₀.length > 2 ∧ t = pyLower t₀) := by
  refine ⟨?_, ?_, ?_, ?_, ?_⟩
  · rw [search_memory_eq]
    split
    · simp
    · split
      · simp
      · exact searchLoop_length_le _ 8 events.reverse [] (by simp)
  · rw [search_memory_eq]
    split
    · simp
    · split
      · simp
      · obtain ⟨l, hl, hsub⟩ :=
          searchLoop_sublist (queryTokens query) 8 events.reverse []
        rw [hl]
        simpa using hsub
  · intro hft
    rw [search_memory_eq]
    have hqt : queryTokens query = [] := by
      simp [queryTokens, hft]
    rw [hqt]
    split <;> simp
  · rw [queryTokens]
    simp [List.length_take]
  · intro t ht
    rw [queryTokens] at ht
    have ht' := List.take_subset 10 _ ht
    obtain ⟨t₀, ht₀, rfl⟩ := List.mem_map.mp ht'
    have hf := List.mem_filter.mp ht₀
    exact ⟨t₀, hf.1, by simpa using hf.2, rfl⟩

/-- Witness for `search_memory_spec`: a query with no token longer than
two characters returns no matches even though an event is stored. -/
theorem search_memory_spec_witness :
    (findallWords "is it").filter (fun t => t.length > 2) = [] ∧
    search_memory [[("type", Val.str "adherence_event"),
      ("med", Val.str "it")]] "is it" 8 = [] := by
  refine ⟨rfl, ?_⟩
  exact (search_memory_spec [[("type", Val.str "adherence_event"),
    ("med", Val.str "it")]] "is it").2.2.1 rfl

theorem respond_eq (g : String → String) (fmt : Val → Option String)
    (events : List EventObj) (query : String) :
    respond_with_memory_first g fmt events query =
      if (search_memory events query 8).isEmpty then some (g query)
      else
        match summarize_events fmt (search_memory events query 8) with
        | none => none
        | some summary =>
          if (pyStrip summary).isEmpty then some (g query)
          else some (foundNotesTemplate summary) := rfl

/-- C1: the memory-first responder returns the Gateway's result for the
raw query, unchanged, whenever the memory search finds no matching
events; and whenever matches exist and their summary is non-blank, it
returns exactly the fixed template around the summary. -/
theorem respond_memory_first_spec (g : String → String)
    (fmt : Val → Option String) (events : List EventObj) (query : String) :
    (search_memory events query 8 = [] →
      respond_with_memory_first g fmt events query = some (g query)) ∧
    (∀ summary : String,
      search_memory events query 8 ≠ [] →
      summarize_events fmt (search_memory events query 8) = some summary →
      pyStrip summary ≠ "" →
      respond_with_memory_first g fmt events query
        = some (foundNotesTemplate summary)) := by
  constructor
  · intro h
    rw [respond_eq, h]
    rfl
  · intro summary hne hs hnb
    have hie : (search_memory events query 8).isEmpty = false := by
      cases h : (search_memory events query 8).isEmpty
      · rfl
      · exact absurd (List.isEmpty_iff.mp h) hne
    have hsie : (pyStrip summary).isEmpty = false := by
      cases h : (pyStrip summary).isEmpty
      · rfl
      · exact absurd ((String.isEmpty_iff _).mp h) hnb
    rw [respond_eq, hie, hs]
    simp [hsie]

set_option maxRecDepth 8000 in
/-- Witness for `respond_memory_first_spec`: a stored doctor note matched
by the query is wrapped in the fixed template; an unmatched query is
answered by the Gateway verbatim. -/
theorem respond_memory_first_spec_witness :
    respond_with_memory_first (fun q => "G:" ++ q) (fun _ => none)
      [[("type", Val.str "doctor_advice"), ("advice_text", Val.str "rest"),
        ("doctor_id", Val.str "d1")]] "rest"
      = some (foundNotesTemplate "- Doctor d1 advised: rest") ∧
    respond_with_memory_first (fun q => "G:" ++ q) (fun _ => none)
      [[("type", Val.str "doctor_advice"), ("advice_text", Val.str "rest"),
        ("doctor_id", Val.str "d1")]] "nomatchword"
      = some ("G:" ++ "nomatchword") := by
  constructor
  · have hs : search_memory [[("type", Val.str "doctor_advice"),
        ("advice_text", Val.str "rest"), ("doctor_id", Val.str "d1")]]
        "rest" 8
        = [[("type", Val.str "doctor_advice"),
            ("advice_text", Val.str "rest"),
            ("doctor_id", Val.str "d1")]] := rfl
    refine (respond_memory_first_spec (fun q => "G:" ++ q) (fun _ => none)
      [[("type", Val.str "doctor_advice"), ("advice_text", Val.str "rest"),
        ("doctor_id", Val.str "d1")]] "rest").2
      "- Doctor d1 advised: rest" ?_ ?_ ?_
    · rw [hs]; simp
    · rw [hs]; rfl
    · decide
  · exact (respond_memory_first_spec (fun q => "G:" ++ q) (fun _ => none)
      [[("type", Val.str "doctor_advice"), ("advice_text", Val.str "rest"),
        ("doctor_id", Val.str "d1")]] "nomatchword").1 rfl

theorem bulletOf_head (fmt : Val → Option String) (ev : EventObj)
    (b : String) (h : bulletOf fmt ev = some b) :
    ∃ tail, b.data = '-' :: tail := by
  simp only [bulletOf] at h
  split at h
  · obtain rfl := Option.some.inj h
    exact ⟨_, rfl⟩
  · split at h
    · simp only [bind, Option.bind_eq_some] at h
      obtain ⟨kws, _, h⟩ := h
      obtain ⟨meds, _, h⟩ := h
      obtain ⟨specsItems, _, h⟩ := h
      obtain ⟨specs, _, h⟩ := h
      obtain rfl := Option.some.inj h
      exact ⟨_, rfl⟩
    · split at h
      · obtain rfl := Option.some.inj h
        exact ⟨_, rfl⟩
      · obtain rfl := Option.some.inj h
        exact ⟨_, rfl⟩

theorem pyStrip_ne_empty_of_head (s : String) (tail : List Char)
    (h : s.data = '-' :: tail) : pyStrip s ≠ "" := by
  intro hc
  have hlist : ((s.data.dropWhile pyWs).reverse.dropWhile pyWs).reverse
      = [] := by
    have := congrArg String.data hc
    simpa [pyStrip] using this
  rw [List.reverse_eq_nil_iff, List.dropWhile_eq_nil_iff] at hlist
  have hmem : '-' ∈ (s.data.dropWhile pyWs).reverse := by
    rw [List.mem_reverse, h]
    have : s.data.dropWhile pyWs = '-' :: tail := by
      rw [h]
      rfl
    rw [h] at this
    rw [this]
    exact List.mem_cons_self '-' tail
  have := hlist '-' hmem
  simp [pyWs] at this

theorem summarize_some_nonblank (fmt : Val → Option String)
    (events : List EventObj) (s : String)
    (hne : events ≠ []) (hs : summarize_events fmt events = some s) :
    pyStrip s ≠ "" := by
  obtain ⟨ev, rest, rfl⟩ := List.exists_cons_of_ne_nil hne
  simp only [summarize_events, List.isEmpty_cons, Bool.false_eq_true,
    if_false, bind, Option.bind_eq_some, List.mapM_cons] at hs
  obtain ⟨bullets, hb, hjoin⟩ := hs
  simp only [Option.bind_eq_some, Option.pure_def, Option.some.injEq] at hb
  obtain ⟨b0, hb0, bs, hbs, rfl⟩ := hb
  obtain rfl := Option.some.inj hjoin
  obtain ⟨tail, htail⟩ := bulletOf_head fmt ev b0 hb0
  have hdata : ∃ t, (joinSep "\n" ((b0 :: bs).take 20)).data
      = b0.data ++ t := by
    have htake : (b0 :: bs).take 20 = b0 :: bs.take 19 := rfl
    rw [htake]
    cases hbt : bs.take 19 with
    | nil => exact ⟨[], by simp [joinSep]⟩
    | cons x xs =>
      exact ⟨'\n' :: (joinSep "\n" (x :: xs)).data, by simp [joinSep]⟩
  obtain ⟨t, ht⟩ := hdata
  apply pyStrip_ne_empty_of_head _ (tail ++ t)
  rw [ht, htail]
  rfl

/-- C10 counterexample: `summarize_events` does not return a string on
every non-empty event list.  A malformed `uploaded_doc_summary` event
whose `keywords` value is a number makes `ev.get("keywords", [])[:6]`
raise `TypeError` (modelled by `none`): no bullet, and no string, is
produced. -/
theorem summarize_events_crash_counterexample :
    summarize_events (fun _ => none)
      [[("type", Val.str "uploaded_doc_summary"), ("keywords", Val.num 5)]]
      = none := rfl

/-- C10 (amended): whenever `summarize_events` completes on a non-empty
event list, its result is non-blank (every rendered bullet begins with
`"- "`), so the branch of `respond_with_memory_first` that falls back to
the Gateway because a non-empty match set produced a blank summary is
unreachable: with matches present the responder's result is exactly the
summarize result mapped through the fixed template. -/
theorem summarize_nonblank_fallback_unreachable (g : String → String)
    (fmt : Val → Option String) (events : List EventObj) (query : String) :
    (∀ s, events ≠ [] → summarize_events fmt events = some s →
      pyStrip s ≠ "") ∧
    (search_memory events query 8 ≠ [] →
      respond_with_memory_first g fmt events query
        = (summarize_events fmt (search_memory events query 8)).map
            foundNotesTemplate) := by
  constructor
  · intro s hne hs
    exact summarize_some_nonblank fmt events s hne hs
  · intro hne
    have hie : (search_memory events query 8).isEmpty = false := by
      cases h : (search_memory events query 8).isEmpty
      · rfl
      · exact absurd (List.isEmpty_iff.mp h) hne
    rw [respond_eq, hie]
    cases hsum : summarize_events fmt (search_memory events query 8) with
    | none => simp
    | some summary =>
      have hnb := summarize_some_nonblank fmt _ summary hne hsum
      have hsie : (pyStrip summary).isEmpty = false := by
        cases h : (pyStrip summary).isEmpty
        · rfl
        · exact absurd ((String.isEmpty_iff _).mp h) hnb
      simp [hsie]

set_option maxRecDepth 8000 in
/-- Witness for `summarize_nonblank_fallback_unreachable` at a concrete
matching query. -/
theorem summarize_nonblank_fallback_unreachable_witness :
    pyStrip "- Doctor d1 advised: rest" ≠ "" ∧
    respond_with_memory_first (fun q => "G:" ++ q) (fun _ => none)
      [[("type", Val.str "doctor_advice"), ("advice_text", Val.str "rest"),
        ("doctor_id", Val.str "d1")]] "rest"
      = (summarize_events (fun _ => none)
          (search_memory
            [[("type", Val.str "doctor_advice"),
              ("advice_text", Val.str "rest"),
              ("doctor_id", Val.str "d1")]] "rest" 8)).map
          foundNotesTemplate := by
  have h := summarize_nonblank_fallback_unreachable (fun q => "G:" ++ q)
    (fun _ => none)
    [[("type", Val.str "doctor_advice"), ("advice_text", Val.str "rest"),
      ("doctor_id", Val.str "d1")]] "rest"
  have hs : search_memory [[("type", Val.str "doctor_advice"),
      ("advice_text", Val.str "rest"), ("doctor_id", Val.str "d1")]]
      "rest" 8
      = [[("type", Val.str "doctor_advice"),
          ("advice_text", Val.str "rest"),
          ("doctor_id", Val.str "d1")]] := rfl
  refine ⟨?_, h.2 (by rw [hs]; simp)⟩
  exact h.1 "- Doctor d1 advised: rest" (by simp) rfl

/-!
## Document Intake Decision — `src/agents/convo_agent.py`,
`handle_uploaded_document` (model-fallback branch)
-/

/-- The sentinel markers checked by `handle_uploaded_document`. -/
def sentinelMarkers : List String :=
  ["MODEL_TRUNCATED", "SIMULATED MODEL RESPONSE", "API ERROR", "UNPARSEABLE"]

/-- The blank-or-sentinel test of `handle_uploaded_document`:
`not ms_text.strip() or any(sig in ms_text.upper() for sig in (...))`. -/
def isSentinelText (ms_text : String) : Bool :=
  (pyStrip ms_text).isEmpty
    || sentinelMarkers.any (fun sig => strContains (pyUpper ms_text) sig)

/-- A separator of `re.split(r"[,\n;]+", ...)`. -/
def isSepChar (c : Char) : Bool := c = ',' || c = '\n' || c = ';'

mutual
/-- `re.split(r"[,\n;]+", s)` scanning state "inside a fragment"
(accumulated reversed in `cur`): a separator ends the fragment and enters
the "inside a run" state. -/
def reSplitFrag : List Char → List Char → List String
  | [], cur => [String.mk cur.reverse]
  | c :: rest, cur =>
    if isSepChar c then String.mk cur.reverse :: reSplitSkip rest
    else reSplitFrag rest (c :: cur)

/-- `re.split(r"[,\n;]+", s)` scanning state "inside a separator run":
further separators are absorbed; the end of input yields the trailing
empty fragment. -/
def reSplitSkip : List Char → List String
  | [] => [""]
  | c :: rest => if isSepChar c then reSplitSkip rest else reSplitFrag rest [c]
end

/-- `re.split(r"[,\n;]+", ms_text)`: fragments between maximal runs of
commas, semicolons and newlines, with an empty fragment at a leading or
trailing run. -/
def reSplitSeps (s : String) : List String := reSplitFrag s.data []

/-- The model-fallback branch of `handle_uploaded_document`, reached when
the rule-based specialty pass yielded nothing (`suggested` is still the
empty set) and the model returned `ms_text`: on a blank or sentinel text
update with the fixed defaults, otherwise add the first six stripped
fragments longer than two characters.  Python's `set` is a `Finset`. -/
def suggestFromModelText (ms_text : String) : Finset String :=
  if isSentinelText ms_text then
    insert "Primary Care" (insert "Internal Medicine" (∅ : Finset String))
  else
    let parts := ((reSplitSeps ms_text).map pyStrip).filter
      (fun p => p.length > 2)
    (parts.take 6).foldl (fun acc p => insert p acc) ∅

theorem foldl_insert_eq_union (l : List String) :
    ∀ acc : Finset String,
      l.foldl (fun acc p => insert p acc) acc = acc ∪ l.toFinset := by
  induction l with
  | nil => intro acc; simp
  | cons x xs ih =>
    intro acc
    rw [List.foldl_cons, ih (insert x acc), List.toFinset_cons]
    ext a
    simp [Finset.mem_union, Finset.mem_insert]

/-- C6: in `handle_uploaded_document`, when the rule-based pass yielded
nothing and the model is consulted: a blank returned text, or one
containing any of the sentinel markers (compared case-insensitively via
uppercasing), gives exactly the fixed default set
`{"Primary Care", "Internal Medicine"}`; otherwise the text is split on
commas, semicolons and newlines, only (stripped) fragments longer than 2
characters are kept, and at most the first 6 become the suggested
specialties. -/
theorem handle_uploaded_doc_model_fallback (ms_text : String) :
    ((pyStrip ms_text = "" ∨ ∃ sig ∈ sentinelMarkers,
        strContains (pyUpper ms_text) sig = true) →
      suggestFromModelText ms_text
        = ({"Primary Care", "Internal Medicine"} : Finset String)) ∧
    (¬(pyStrip ms_text = "" ∨ ∃ sig ∈ sentinelMarkers,
        strContains (pyUpper ms_text) sig = true) →
      suggestFromModelText ms_text
        = ((((reSplitSeps ms_text).map pyStrip).filter
            (fun p => p.length > 2)).take 6).toFinset ∧
      (suggestFromModelText ms_text).card ≤ 6) := by
  have hcond : isSentinelText ms_text = true ↔
      (pyStrip ms_text = "" ∨ ∃ sig ∈ sentinelMarkers,
        strContains (pyUpper ms_text) sig = true) := by
    simp [isSentinelText, List.any_eq_true, String.isEmpty_iff]
  constructor
  · intro h
    simp only [suggestFromModelText]
    rw [if_pos (hcond.mpr h)]
    rfl
  · intro h
    have hf : isSentinelText ms_text = false := by
      cases hb : isSentinelText ms_text
      · rfl
      · exact absurd (hcond.mp hb) h
    simp only [suggestFromModelText, hf, Bool.false_eq_true, if_false,
      foldl_insert_eq_union, Finset.empty_union]
    refine ⟨trivial, ?_⟩
    exact le_trans (List.toFinset_card_le _) (by simp [List.length_take])

set_option maxRecDepth 4000 in
/-- Witness for `handle_uploaded_doc_model_fallback`: a sentinel text
falls back to the default pair; a plain comma-separated answer is parsed
into its fragments. -/
theorem handle_uploaded_doc_model_fallback_witness :
    suggestFromModelText "SIMULATED MODEL RESPONSE: hi"
      = ({"Primary Care", "Internal Medicine"} : Finset String) ∧
    suggestFromModelText "Cardiology, Endocrinology"
      = ((((reSplitSeps "Cardiology, Endocrinology").map pyStrip).filter
          (fun p => p.length > 2)).take 6).toFinset := by
  constructor
  · exact (handle_uploaded_doc_model_fallback
      "SIMULATED MODEL RESPONSE: hi").1 (Or.inr (by decide))
  · exact ((handle_uploaded_doc_model_fallback
      "Cardiology, Endocrinology").2 (by decide)).1
